import Mathlib

/-!
Verification of the PMC image/caption extraction pipeline
(`pubmed_extractor.py`, class `PMCImageTextExtractor`).

The Python code is shallowly embedded: XML trees (`xml.etree.ElementTree`)
become an inductive `Element`; network responses, HTML regex scraping,
image decoding and file writes become explicit oracle environments; the
`try/except` blocks become total functions returning `Option`.
-/

/-- An XML element as produced by `xml.etree.ElementTree`: tag, attribute
dictionary, text before the first child, child elements, and tail text
following the element.  Python `None` text/tail is modelled as `""`. -/
inductive Element where
  | mk (tag : String) (attrs : List (String × String)) (text : String)
       (children : List Element) (tail : String)

def Element.tag : Element → String
  | .mk t _ _ _ _ => t

def Element.attrs : Element → List (String × String)
  | .mk _ a _ _ _ => a

def Element.text : Element → String
  | .mk _ _ tx _ _ => tx

def Element.children : Element → List Element
  | .mk _ _ _ cs _ => cs

def Element.tail : Element → String
  | .mk _ _ _ _ tl => tl

/-- Model of `element.get(key)` on the attribute dictionary. -/
def Element.getAttr (e : Element) (k : String) : Option String :=
  (e.attrs.find? (fun p => p.1 == k)).map (fun p => p.2)

mutual

/-- All strict descendants of an element in document (preorder) order. -/
def elemDescendants : Element → List Element
  | .mk _ _ _ cs _ => listDescendants cs

def listDescendants : List Element → List Element
  | [] => []
  | c :: cs => c :: elemDescendants c ++ listDescendants cs

end

mutual

/-- Model of `"".join(element.itertext())`: the text of the element
followed by the itertext and tail of each child, in document order. -/
def elemItertext : Element → String
  | .mk _ _ tx cs _ => tx ++ listItertext cs

def listItertext : List Element → String
  | [] => ""
  | c :: cs => elemItertext c ++ c.tail ++ listItertext cs

end

/-- Model of `element.findall(".//tag")`: all descendants with the
given tag, in document order. -/
def findallTag (e : Element) (t : String) : List Element :=
  (elemDescendants e).filter (fun c => c.tag == t)

/-- Model of `element.find(".//tag")`: the first descendant with the given tag. -/
def findFirstTag (e : Element) (t : String) : Option Element :=
  (elemDescendants e).find? (fun c => c.tag == t)

/-- Model of `root.findall(".//fig-group/fig")`: fig children of every
descendant fig-group. -/
def findallFigGroupFig (root : Element) : List Element :=
  ((elemDescendants root).filter (fun c => c.tag == "fig-group")).flatMap
    (fun g => g.children.filter (fun c => c.tag == "fig"))

/-- Model of `root.findall(".//fig") + root.findall(".//fig-group/fig")`
(line 165 of `pubmed_extractor.py`). -/
def fig_elements (root : Element) : List Element :=
  findallTag root "fig" ++ findallFigGroupFig root

/-- The namespace-expanded attribute key
`graphic_element.get("{xlink}href")` used at line 193. -/
def xlinkHref : String := "\x7bhttp://www.w3.org/1999/xlink\x7dhref"

/-- One extracted figure record (the dict appended to `figures`). -/
structure FigureData where
  pmc_id : String
  figure_id : String
  caption : String
  image_href : String
  local_image_path : Option String := none
deriving DecidableEq, Repr

/-- Whether `pat` occurs as a contiguous sublist of the second argument. -/
def listInfix (pat : List Char) : List Char → Bool
  | [] => pat.isEmpty
  | c :: rest => pat.isPrefixOf (c :: rest) || listInfix pat rest

/-- Case-insensitive substring containment, the semantics of searching
for a literal keyword with `re.IGNORECASE`. -/
def containsCI (s kw : String) : Bool :=
  listInfix (kw.data.map Char.toLower) (s.data.map Char.toLower)

/-- Python `str.strip()`: remove leading and trailing whitespace. -/
def pyStrip (s : String) : String :=
  ⟨((s.data.dropWhile Char.isWhitespace).reverse.dropWhile Char.isWhitespace).reverse⟩

/-- Model of the check that the regex search for fundus|oct|octa with
`re.IGNORECASE` over the caption succeeds: the caption contains one of
the three literal alternatives case-insensitively (line 182). -/
def keywordSearch (s : String) : Bool :=
  containsCI s "fundus" || containsCI s "oct" || containsCI s "octa"

/-- The body of the `for fig in fig_elements` loop (lines 167-196) for a
single figure element, given the current `len(figures)`.  Returns the
record to append, or `none` when the figure is skipped. -/
def processFig (pid : String) (fig : Element) (nAcc : Nat) : Option FigureData :=
  let fig_id := (fig.getAttr "id").getD ("fig_" ++ toString nAcc)
  match findFirstTag fig "caption" with
  | none => none
  | some cap =>
    let caption_text := pyStrip (elemItertext cap)
    if keywordSearch caption_text then
      match findFirstTag fig "graphic" with
      | none => none
      | some g =>
        match g.getAttr xlinkHref with
        | none => none
        | some href =>
          if href = "" then none
          else some { pmc_id := pid, figure_id := fig_id, caption := caption_text,
                      image_href := href, local_image_path := none }
    else none

/-- The accumulation loop of `extract_figure_data` over the collected
figure elements. -/
def extractLoop (pid : String) : List Element → List FigureData → List FigureData
  | [], acc => acc
  | fig :: rest, acc =>
    match processFig pid fig acc.length with
    | none => extractLoop pid rest acc
    | some fd => extractLoop pid rest (acc ++ [fd])

/-- Model of `extract_figure_data(xml_string, pmc_id)` (lines 140-202).  The
`ET.fromstring` call is modelled by its result: `none` when parsing
raises (the `except` branch returns `[]`), `some root` otherwise. -/
def extract_figure_data (parse_result : Option Element) (pmc_id : String) :
    List FigureData :=
  match parse_result with
  | none => []
  | some root => extractLoop pmc_id (fig_elements root) []

/-- One entry of `metadata["pairs"]` (the `pair_data` dict built at
lines 301-306). -/
structure DatasetEntry where
  image_path : String
  caption : String
  pmc_id : String
  figure_id : String
deriving DecidableEq, Repr

/-- A JSON value, the image of `json.dump` / `json.load`. -/
inductive Json where
  | str (s : String)
  | num (n : Int)
  | arr (xs : List Json)
  | obj (fields : List (String × Json))

/-- Serialization of one pair entry as written by `json.dump`. -/
def entryToJson (e : DatasetEntry) : Json :=
  .obj [("image_path", .str e.image_path), ("caption", .str e.caption),
        ("pmc_id", .str e.pmc_id), ("figure_id", .str e.figure_id)]

/-- Serialization of the whole `self.metadata` dict
`\x7b"pairs": [...]\x7d`. -/
def metadataToJson (pairs : List DatasetEntry) : Json :=
  .obj [("pairs", .arr (pairs.map entryToJson))]

/-- Key lookup in a JSON object (Python dict indexing). -/
def jsonLookup : List (String × Json) → String → Option Json
  | [], _ => none
  | (k, v) :: rest, key => if k = key then some v else jsonLookup rest key

/-- Read a JSON value as a string field. -/
def asStr : Option Json → Option String
  | some (.str s) => some s
  | _ => none

/-- Decode one pair entry from a re-loaded metadata JSON document. -/
def entryOfJson : Json → Option DatasetEntry
  | .obj fs =>
    match asStr (jsonLookup fs "image_path"), asStr (jsonLookup fs "caption"),
        asStr (jsonLookup fs "pmc_id"), asStr (jsonLookup fs "figure_id") with
    | some a, some b, some c, some d =>
      some { image_path := a, caption := b, pmc_id := c, figure_id := d }
    | _, _, _, _ => none
  | _ => none

/-- Decode a list of pair entries. -/
def entriesOfJson : List Json → Option (List DatasetEntry)
  | [] => some []
  | j :: rest =>
    match entryOfJson j, entriesOfJson rest with
    | some e, some es => some (e :: es)
    | _, _ => none

/-- Decode the whole metadata document back into the pairs list
(`json.load` followed by reading `data["pairs"]`). -/
def metadataOfJson : Json → Option (List DatasetEntry)
  | .obj fs =>
    match jsonLookup fs "pairs" with
    | some (.arr xs) => entriesOfJson xs
    | _ => none
  | _ => none

/-- Python `str.startswith`. -/
def pyStartsWith (s p : String) : Bool := p.data.isPrefixOf s.data

/-- Python `str.endswith`. -/
def pyEndsWith (s p : String) : Bool := p.data.isSuffixOf s.data

/-- All characters are decimal digits, and there is at least one. -/
def allDigits (l : List Char) : Bool := !l.isEmpty && l.all Char.isDigit

/-- The numeric value of a decimal digit string. -/
def digitsVal (l : List Char) : Nat :=
  l.foldl (fun a c => a * 10 + (c.toNat - 48)) 0

/-- Python `int(...)` on a string: an optional sign followed by at
least one decimal digit; anything else raises (`none`). -/
def pyInt? (s : String) : Option Int :=
  match s.data with
  | '-' :: rest => if allDigits rest then some (-(digitsVal rest : Int)) else none
  | '+' :: rest => if allDigits rest then some (digitsVal rest : Int) else none
  | l => if allDigits l then some (digitsVal l : Int) else none

/-- Model of `os.path.join` for a relative or absolute second component. -/
def pathJoin (a b : String) : String :=
  if pyStartsWith b "/" then b
  else if a = "" then b
  else if pyEndsWith a "/" then a ++ b
  else a ++ "/" ++ b

/-- Model of `os.path.basename`: the part after the last path separator. -/
def pathBasename (s : String) : String :=
  ⟨(s.data.reverse.takeWhile (fun c => c ≠ '/')).reverse⟩

/-- The observable outcomes of the network, scraping, decoding and file
IO steps inside `download_figure_image` (lines 204-271).  `srcMatches`
is `re.findall` of the src-attribute pattern built from `image_href`
over the fetched article HTML; `figIdMatches` is the fallback
`data-figure-id` pattern; `imageStatus` is the HTTP status of the image
GET; `decodeOk` is whether `Image.open` succeeds on the downloaded
bytes; `saveOk` is whether `img.save` succeeds. -/
structure DownloadEnv where
  pageStatus : Nat
  srcMatches : String → List String
  figIdMatches : String → List String
  imageStatus : String → Nat
  decodeOk : String → Bool
  saveOk : Bool

/-- Model of `download_figure_image(figure_data, pmc_id)` (lines 204-271).  Every
failure branch, and every exception reaching the `except` handler,
yields `none`. -/
def download_figure_image (env : DownloadEnv) (image_dir : String)
    (figure_data : FigureData) (pmc_id : String) : Option FigureData :=
  if env.pageStatus ≠ 200 then none
  else
    let ms := env.srcMatches figure_data.image_href
    let ms2 := if ms.isEmpty then env.figIdMatches figure_data.figure_id else ms
    match ms2 with
    | [] => none
    | url :: _ =>
      let image_url := if pyStartsWith url "/" then "https://www.ncbi.nlm.nih.gov" ++ url
                       else url
      if env.imageStatus image_url ≠ 200 then none
      else if env.decodeOk image_url = false then none
      else if env.saveOk = false then none
      else
        let image_filename := "PMC" ++ pmc_id ++ "_" ++ figure_data.figure_id ++ ".jpg"
        let image_path := pathJoin image_dir image_filename
        some { figure_data with local_image_path := some image_path }

/-- The `pair_data` dict appended to `self.metadata["pairs"]` for one
successfully downloaded figure (lines 301-306). -/
def pairData (pid : String) (pf : FigureData) : DatasetEntry :=
  { image_path := pathBasename (pf.local_image_path.getD ""),
    caption := pf.caption, pmc_id := pid, figure_id := pf.figure_id }

/-- The per-figure loop of `process_article` (lines 292-308): download
each figure (outcome given by the oracle `dl`) and collect the appended
pair entries in order.  `pairs_count` is the length of this list. -/
def process_article (dl : FigureData → Option FigureData) (pid : String) :
    List FigureData → List DatasetEntry
  | [] => []
  | fig :: rest =>
    match dl fig with
    | none => process_article dl pid rest
    | some pf => pairData pid pf :: process_article dl pid rest

/-- The assembler state of `create_dataset`: the in-memory
`self.metadata["pairs"]` list, the metadata file contents (`none` while
the file has never been written), and the trace of loop indices at
which a flush happened. -/
structure AssemblerState where
  pairs : List DatasetEntry
  file : Option Json
  flushes : List Nat

def initState : AssemblerState := { pairs := [], file := none, flushes := [] }

/-- One iteration of the `create_dataset` loop (lines 335-347) for the
article at zero-based index `i` out of `n`: append the pair
entries, then flush the full accumulated collection to the metadata
file when `i % 5 == 0 or i == n - 1`. -/
def buildStep (n i : Nat) (art : List DatasetEntry) (st : AssemblerState) :
    AssemblerState :=
  let st1 : AssemblerState := { st with pairs := st.pairs ++ art }
  if i % 5 == 0 || i == n - 1 then
    { st1 with file := some (metadataToJson st1.pairs), flushes := st1.flushes ++ [i] }
  else st1

/-- The `create_dataset` loop over the per-article pair-entry lists. -/
def buildLoop (n : Nat) : List (List DatasetEntry) → Nat → AssemblerState → AssemblerState
  | [], _, st => st
  | art :: rest, i, st => buildLoop n rest (i + 1) (buildStep n i art st)

/-- The assembler state after the first `k` articles of a run of
`create_dataset` over `arts` (each list being the pair entries that
`process_article` appends for that article). -/
def createDatasetState (arts : List (List DatasetEntry)) (k : Nat) : AssemblerState :=
  buildLoop arts.length (arts.take k) 0 initState

/-- The final assembler state of `create_dataset(query, ...)`
(lines 312-353), with the identifier list resolved to `arts.length`
articles whose extracted-and-downloaded pair entries are `arts`. -/
def create_dataset (arts : List (List DatasetEntry)) : AssemblerState :=
  createDatasetState arts arts.length

/-- The observable outcomes of the two E-utilities requests inside
`search_articles` (lines 39-106): the HTTP status and body text of the
`rettype=count` request, and the HTTP status and decoded
`esearchresult.idlist` of the identifier request (`none` when the JSON
body cannot be decoded or lacks the field). -/
structure SearchEnv where
  countStatus : Nat
  countText : String
  searchStatus : Nat
  idlist : Option (List String)

/-- Model of `search_articles(query, limit_results, max_results)`.  The result is
the returned identifier list, or `Except.error` when an uncaught Python
exception (`int()` on a non-numeric count body, a JSON decode or key
error) would propagate; paired with the trace of HTTP requests made. -/
def search_articles (env : SearchEnv) (_limit_results : Bool) (_max_results : Nat) :
    Except String (List String) × List String :=
  if env.countStatus ≠ 200 then (Except.ok [], ["count"])
  else
    match pyInt? (pyStrip env.countText) with
    | none => (Except.error "ValueError", ["count"])
    | some _total =>
      if env.searchStatus ≠ 200 then (Except.ok [], ["count", "search"])
      else
        match env.idlist with
        | none => (Except.error "JSONError", ["count", "search"])
        | some ids => (Except.ok ids, ["count", "search"])

/-! ### Helper lemmas about the figure extractor -/

/-- Inversion: a figure record produced by the loop body records a found
caption, a keyword match, and a found graphic with a non-empty href. -/
theorem processFig_eq_some {pid : String} {fig : Element} {n : Nat} {fd : FigureData}
    (h : processFig pid fig n = some fd) :
    ∃ cap, findFirstTag fig "caption" = some cap ∧
      fd.caption = pyStrip (elemItertext cap) ∧
      keywordSearch fd.caption = true ∧
      (∃ g, findFirstTag fig "graphic" = some g ∧
        g.getAttr xlinkHref = some fd.image_href) ∧
      fd.image_href ≠ "" ∧ fd.pmc_id = pid ∧ fd.local_image_path = none ∧
      fd.figure_id = (fig.getAttr "id").getD ("fig_" ++ toString n) := by
  simp only [processFig] at h
  split at h
  · exact absurd h (by simp)
  · next cap hcap =>
    split at h
    · next hkw =>
      split at h
      · exact absurd h (by simp)
      · next g hg =>
        split at h
        · exact absurd h (by simp)
        · next href hhref =>
          split at h
          · exact absurd h (by simp)
          · next hne =>
            injection h with h2
            subst h2
            exact ⟨cap, hcap, rfl, hkw, ⟨g, hg, hhref⟩, hne, rfl, rfl, rfl⟩
    · exact absurd h (by simp)

/-- Forward computation: a figure with a caption matching the keywords
and a graphic with a non-empty href is turned into a record. -/
theorem processFig_of_parts (pid : String) {fig cap g : Element} {href : String} (n : Nat)
    (hcap : findFirstTag fig "caption" = some cap)
    (hkw : keywordSearch (pyStrip (elemItertext cap)) = true)
    (hg : findFirstTag fig "graphic" = some g)
    (hhref : g.getAttr xlinkHref = some href)
    (hne : href ≠ "") :
    processFig pid fig n = some
      { pmc_id := pid,
        figure_id := (fig.getAttr "id").getD ("fig_" ++ toString n),
        caption := pyStrip (elemItertext cap),
        image_href := href, local_image_path := none } := by
  simp [processFig, hcap, hkw, hg, hhref, hne]

/-- Structure of the accumulation loop: the result extends the
accumulator, and the record at offset `j` beyond it was produced by the
loop body for some collected element at count `acc.length + j`. -/
theorem extractLoop_eq_append (pid : String) :
    ∀ (figs : List Element) (acc : List FigureData),
      ∃ rest, extractLoop pid figs acc = acc ++ rest ∧
        ∀ j (hj : j < rest.length), ∃ fig ∈ figs,
          processFig pid fig (acc.length + j) = some (rest.get ⟨j, hj⟩) := by
  intro figs
  induction figs with
  | nil =>
    intro acc
    refine ⟨[], by simp [extractLoop], ?_⟩
    intro j hj
    simp at hj
  | cons f fs ih =>
    intro acc
    cases hpf : processFig pid f acc.length with
    | none =>
      obtain ⟨rest, h1, h2⟩ := ih acc
      refine ⟨rest, ?_, ?_⟩
      · simp only [extractLoop, hpf]
        exact h1
      · intro j hj
        obtain ⟨fig, hmem, hp⟩ := h2 j hj
        exact ⟨fig, List.mem_cons_of_mem f hmem, hp⟩
    | some fd =>
      obtain ⟨r, h1, h2⟩ := ih (acc ++ [fd])
      refine ⟨fd :: r, ?_, ?_⟩
      · simp only [extractLoop, hpf]
        rw [h1]
        simp
      · intro j hj
        cases j with
        | zero => exact ⟨f, List.mem_cons_self f fs, by simpa using hpf⟩
        | succ j2 =>
          have hj2 : j2 < r.length := by simpa using hj
          obtain ⟨fig, hmem, hp⟩ := h2 j2 hj2
          refine ⟨fig, List.mem_cons_of_mem f hmem, ?_⟩
          have harith : (acc ++ [fd]).length + j2 = acc.length + (j2 + 1) := by
            simp [List.length_append]
            omega
          rw [harith] at hp
          exact hp

/-- Records already in the accumulator stay in the loop output. -/
theorem mem_extractLoop_of_mem_acc (pid : String) (figs : List Element)
    (acc : List FigureData) (fd : FigureData) (hfd : fd ∈ acc) :
    fd ∈ extractLoop pid figs acc := by
  obtain ⟨r, h1, _⟩ := extractLoop_eq_append pid figs acc
  rw [h1]
  exact List.mem_append_left r hfd

/-- Completeness: a collected figure element carrying a keyword-matching
caption and a non-empty graphic href contributes a record to the loop
output. -/
theorem extractLoop_complete (pid : String) {cap g : Element} {href : String} :
    ∀ (figs : List Element) (acc : List FigureData) (fig : Element),
      fig ∈ figs →
      findFirstTag fig "caption" = some cap →
      keywordSearch (pyStrip (elemItertext cap)) = true →
      findFirstTag fig "graphic" = some g →
      g.getAttr xlinkHref = some href → href ≠ "" →
      ∃ fd ∈ extractLoop pid figs acc,
        fd.caption = pyStrip (elemItertext cap) ∧ fd.image_href = href ∧
        fd.pmc_id = pid := by
  intro figs
  induction figs with
  | nil =>
    intro acc fig hmem
    cases hmem
  | cons f fs ih =>
    intro acc fig hmem hcap hkw hg hhref hne
    rcases List.mem_cons.mp hmem with heq | hmem2
    · subst heq
      have hpf := processFig_of_parts pid acc.length hcap hkw hg hhref hne
      refine ⟨⟨pid, (fig.getAttr "id").getD ("fig_" ++ toString acc.length),
        pyStrip (elemItertext cap), href, none⟩, ?_, rfl, rfl, rfl⟩
      simp only [extractLoop, hpf]
      exact mem_extractLoop_of_mem_acc pid fs _ _ (by simp)
    · cases hpf : processFig pid f acc.length with
      | none =>
        simp only [extractLoop, hpf]
        exact ih acc fig hmem2 hcap hkw hg hhref hne
      | some fd =>
        simp only [extractLoop, hpf]
        exact ih (acc ++ [fd]) fig hmem2 hcap hkw hg hhref hne

/-- The value of `getD` does not depend on the default when the option is populated. -/
theorem getD_eq_of_isSome {α : Type} (o : Option α) (h : o.isSome = true) (a b : α) :
    o.getD a = o.getD b := by
  obtain ⟨v, hv⟩ := Option.isSome_iff_exists.mp h
  rw [hv]
  rfl

/-- When every collected figure element carries an `id` attribute and no
two carry the same one (counting repetitions of the same element), the
loop output has pairwise-distinct `figure_id` values. -/
theorem extractLoop_pairwise (pid : String) :
    ∀ (figs : List Element) (acc : List FigureData),
      (∀ f ∈ figs, (f.getAttr "id").isSome = true) →
      List.Pairwise (fun a b => a ≠ b)
        (acc.map (fun fd => fd.figure_id) ++
          figs.map (fun f => (f.getAttr "id").getD "")) →
      List.Pairwise (fun a b => a ≠ b)
        ((extractLoop pid figs acc).map (fun fd => fd.figure_id)) := by
  intro figs
  induction figs with
  | nil =>
    intro acc _ hp
    simpa [extractLoop] using hp
  | cons f fs ih =>
    intro acc hsome hp
    cases hpf : processFig pid f acc.length with
    | none =>
      simp only [extractLoop, hpf]
      refine ih acc (fun x hx => hsome x (List.mem_cons_of_mem f hx)) ?_
      refine List.Pairwise.sublist ?_ hp
      simp only [List.map_cons]
      exact List.Sublist.append_left (List.sublist_cons_self _ _) _
    | some fd =>
      simp only [extractLoop, hpf]
      refine ih (acc ++ [fd]) (fun x hx => hsome x (List.mem_cons_of_mem f hx)) ?_
      have hfid : fd.figure_id = (f.getAttr "id").getD "" := by
        obtain ⟨cap, _, _, _, _, _, _, _, h8⟩ := processFig_eq_some hpf
        rw [h8]
        exact getD_eq_of_isSome _ (hsome f (List.mem_cons_self f fs)) _ _
      simpa [hfid] using hp

/-! ### Helper lemmas about the dataset assembler -/

/-- A build step appends the entries of the article to the pairs list. -/
theorem buildStep_pairs (n i : Nat) (art : List DatasetEntry) (st : AssemblerState) :
    (buildStep n i art st).pairs = st.pairs ++ art := by
  unfold buildStep
  split <;> rfl

/-- The pairs accumulated by the loop are the concatenation of the
per-article entry lists. -/
theorem buildLoop_pairs (n : Nat) :
    ∀ (arts : List (List DatasetEntry)) (i : Nat) (st : AssemblerState),
      (buildLoop n arts i st).pairs = st.pairs ++ arts.flatten := by
  intro arts
  induction arts with
  | nil => intro i st; simp [buildLoop]
  | cons a rest ih =>
    intro i st
    simp only [buildLoop]
    rw [ih, buildStep_pairs]
    simp

/-- The trace of flush indices is exactly the indices `j` in the
processed range with `j % 5 == 0 || j == n - 1`. -/
theorem buildLoop_flushes (n : Nat) :
    ∀ (arts : List (List DatasetEntry)) (i : Nat) (st : AssemblerState),
      (buildLoop n arts i st).flushes = st.flushes ++
        (List.range' i arts.length).filter (fun j => j % 5 == 0 || j == n - 1) := by
  intro arts
  induction arts with
  | nil => intro i st; simp [buildLoop]
  | cons a rest ih =>
    intro i st
    simp only [buildLoop, List.length_cons]
    rw [ih, List.range'_succ]
    unfold buildStep
    split
    · next hcond =>
      simp [List.filter_cons, hcond]
    · next hcond =>
      simp only [List.filter_cons]
      rw [if_neg (by simpa using hcond)]

/-- When the condition holds at the last processed index, the loop
leaves the metadata file holding the serialization of the full
accumulated pairs list. -/
theorem buildLoop_file_of_last (n : Nat) :
    ∀ (arts : List (List DatasetEntry)) (i : Nat) (st : AssemblerState),
      arts ≠ [] →
      ((i + arts.length - 1) % 5 == 0 || (i + arts.length - 1) == n - 1) = true →
      (buildLoop n arts i st).file = some (metadataToJson (st.pairs ++ arts.flatten)) := by
  intro arts
  induction arts with
  | nil => intro i st h; exact absurd rfl h
  | cons a rest ih =>
    intro i st hne hcond
    cases rest with
    | nil =>
      have hcond2 : (i % 5 == 0 || i == n - 1) = true := by simpa using hcond
      simp only [buildLoop]
      unfold buildStep
      rw [if_pos hcond2]
      simp
    | cons b rest2 =>
      rw [show buildLoop n (a :: b :: rest2) i st
          = buildLoop n (b :: rest2) (i + 1) (buildStep n i a st) from rfl]
      have harith : i + 1 + (b :: rest2).length - 1 = i + (a :: b :: rest2).length - 1 := by
        simp
        omega
      rw [ih (i + 1) (buildStep n i a st) (by simp) (by rw [harith]; exact hcond),
        buildStep_pairs]
      simp

/-! ### JSON round trip, figure download, per-article loop -/

theorem entryOfJson_entryToJson (e : DatasetEntry) :
    entryOfJson (entryToJson e) = some e := by
  simp [entryOfJson, entryToJson, jsonLookup, asStr]

theorem entriesOfJson_map (ps : List DatasetEntry) :
    entriesOfJson (ps.map entryToJson) = some ps := by
  induction ps with
  | nil => rfl
  | cons e rest ih => simp [entriesOfJson, entryOfJson_entryToJson, ih]

/-- Decoding a serialized metadata document recovers the pairs list
exactly. -/
theorem metadataOfJson_metadataToJson (ps : List DatasetEntry) :
    metadataOfJson (metadataToJson ps) = some ps := by
  simp [metadataOfJson, metadataToJson, jsonLookup, entriesOfJson_map]

/-- The per-figure loop distributes over concatenation. -/
theorem process_article_append (dl : FigureData → Option FigureData) (pid : String)
    (l1 l2 : List FigureData) :
    process_article dl pid (l1 ++ l2)
      = process_article dl pid l1 ++ process_article dl pid l2 := by
  induction l1 with
  | nil => rfl
  | cons f rest ih =>
    simp only [List.cons_append, process_article]
    cases dl f <;> simp [ih]

/-- The per-figure loop only consults the download outcome of the
figures in the list. -/
theorem process_article_congr (dl dl2 : FigureData → Option FigureData) (pid : String)
    (l : List FigureData) (h : ∀ g ∈ l, dl2 g = dl g) :
    process_article dl2 pid l = process_article dl pid l := by
  induction l with
  | nil => rfl
  | cons f rest ih =>
    simp only [process_article]
    rw [h f (List.mem_cons_self f rest)]
    cases dl f <;> simp [ih (fun g hg => h g (List.mem_cons_of_mem f hg))]

/-- Joining paths always produces a path ending in the second
component. -/
theorem pathJoin_suffix (a b : String) : ∃ pre, pathJoin a b = pre ++ b := by
  unfold pathJoin
  split
  · exact ⟨"", rfl⟩
  · split
    · exact ⟨"", rfl⟩
    · split
      · exact ⟨a, rfl⟩
      · exact ⟨a ++ "/", by rw [String.append_assoc]⟩

/-- Inversion of a successful download: every stage succeeded, and the
result is the input record with only `local_image_path` added. -/
theorem download_figure_image_eq_some {env : DownloadEnv} {dir : String}
    {fd : FigureData} {pid : String} {out : FigureData}
    (h : download_figure_image env dir fd pid = some out) :
    env.pageStatus = 200 ∧
    (∃ url rest,
      (if (env.srcMatches fd.image_href).isEmpty then env.figIdMatches fd.figure_id
       else env.srcMatches fd.image_href) = url :: rest ∧
      env.imageStatus (if pyStartsWith url "/" then "https://www.ncbi.nlm.nih.gov" ++ url
        else url) = 200 ∧
      env.decodeOk (if pyStartsWith url "/" then "https://www.ncbi.nlm.nih.gov" ++ url
        else url) = true) ∧
    env.saveOk = true ∧
    out = { fd with local_image_path := some (pathJoin dir ("PMC" ++ pid ++ "_" ++ fd.figure_id ++ ".jpg")) } := by
  simp only [download_figure_image] at h
  split at h
  · exact absurd h (by simp)
  · next hpage =>
    split at h
    · exact absurd h (by simp)
    · next url rest heq =>
      generalize hurl : (if pyStartsWith url "/" = true
        then "https://www.ncbi.nlm.nih.gov" ++ url else url) = image_url at h
      split at h
      · exact absurd h (by simp)
      · next himg =>
        split at h
        · exact absurd h (by simp)
        · next hdec =>
          split at h
          · exact absurd h (by simp)
          · next hsave =>
            injection h with h2
            subst hurl
            exact ⟨not_ne_iff.mp hpage,
              ⟨url, rest, heq, not_ne_iff.mp himg, by simpa using hdec⟩,
              by simpa using hsave, h2.symm⟩


/-! ### Concrete fixtures -/

/-- A caption element whose text contains the keyword `Fundus`. -/
def capF1 : Element := .mk "caption" [] "Fundus image" [] ""

/-- A graphic element with an xlink href. -/
def graphicF1 : Element := .mk "graphic" [(xlinkHref, "img1.jpg")] "" [] ""

/-- A fig with id `f1`, a keyword caption and a graphic href. -/
def figF1 : Element := .mk "fig" [("id", "f1")] "" [capF1, graphicF1] ""

/-- An article whose only fig sits inside a fig-group, so the element
search collects it twice. -/
def groupedRoot : Element :=
  .mk "article" [] "" [.mk "fig-group" [] "" [figF1] ""] ""

/-- A caption element containing the keyword `OCT`. -/
def capNoId : Element := .mk "caption" [] "OCT scan of the retina" [] ""

/-- A graphic element with an xlink href. -/
def graphicNoId : Element := .mk "graphic" [(xlinkHref, "img2.jpg")] "" [] ""

/-- A fig without an `id` attribute. -/
def figNoId : Element := .mk "fig" [] "" [capNoId, graphicNoId] ""

/-- An article with a single ungrouped fig lacking an id. -/
def plainRoot : Element := .mk "article" [] "" [figNoId] ""

/-- The record the extractor produces for `plainRoot`. -/
def fdNoId : FigureData :=
  { pmc_id := "77", figure_id := "fig_0", caption := "OCT scan of the retina",
    image_href := "img2.jpg", local_image_path := none }

/-- The record the extractor produces (twice) for `groupedRoot`. -/
def fdF1 : FigureData :=
  { pmc_id := "123", figure_id := "f1", caption := "Fundus image",
    image_href := "img1.jpg", local_image_path := none }

/-- Two figs with distinct ids inside a plain article. -/
def figA : Element := .mk "fig" [("id", "fa")] ""
  [.mk "caption" [] "Fundus photograph" [] "",
   .mk "graphic" [(xlinkHref, "a.jpg")] "" [] ""] ""

def figB : Element := .mk "fig" [("id", "fb")] ""
  [.mk "caption" [] "OCTA image" [] "",
   .mk "graphic" [(xlinkHref, "b.jpg")] "" [] ""] ""

def twoFigRoot : Element := .mk "article" [] "" [figA, figB] ""

/-! ### Claims about the figure extractor -/

/-- C1: for every parsed article tree, the filtered extractor emits only
records whose caption matches one of the keywords `fundus`, `oct`,
`octa` case-insensitively, and every collected figure element with a
caption matching a keyword and a graphic with a non-empty image
reference contributes a record carrying that caption and reference. -/
theorem claim_C1 (root : Element) (pid : String) :
    (∀ fd ∈ extract_figure_data (some root) pid, keywordSearch fd.caption = true) ∧
    (∀ fig ∈ fig_elements root, ∀ cap g href,
      findFirstTag fig "caption" = some cap →
      keywordSearch (pyStrip (elemItertext cap)) = true →
      findFirstTag fig "graphic" = some g →
      g.getAttr xlinkHref = some href → href ≠ "" →
      ∃ fd ∈ extract_figure_data (some root) pid,
        fd.caption = pyStrip (elemItertext cap) ∧ fd.image_href = href) := by
  constructor
  · intro fd hfd
    simp only [extract_figure_data] at hfd
    obtain ⟨rest, h1, h2⟩ := extractLoop_eq_append pid (fig_elements root) []
    rw [h1] at hfd
    simp only [List.nil_append] at hfd
    obtain ⟨⟨j, hj⟩, hget⟩ := List.mem_iff_get.mp hfd
    obtain ⟨fig, hmem, hp⟩ := h2 j hj
    rw [hget] at hp
    obtain ⟨cap, _, _, hkw, _⟩ := processFig_eq_some hp
    exact hkw
  · intro fig hmem cap g href hcap hkw hg hhref hne
    simp only [extract_figure_data]
    obtain ⟨fd, hfd, hc, hh, _⟩ :=
      extractLoop_complete pid (fig_elements root) [] fig hmem hcap hkw hg hhref hne
    exact ⟨fd, hfd, hc, hh⟩

/-- C1 witness at a concrete fixture. -/
theorem claim_C1_witness :
    (∀ fd ∈ extract_figure_data (some plainRoot) "77", keywordSearch fd.caption = true) ∧
    (∃ fd ∈ extract_figure_data (some plainRoot) "77",
      fd.caption = pyStrip (elemItertext capNoId) ∧ fd.image_href = "img2.jpg") :=
  ⟨(claim_C1 plainRoot "77").1,
    (claim_C1 plainRoot "77").2 figNoId
      (by rw [show fig_elements plainRoot = [figNoId] from rfl]
          exact List.mem_cons_self _ _)
      capNoId graphicNoId "img2.jpg" rfl (by decide) rfl rfl (by decide)⟩

/-- C2 counterexample: in `groupedRoot` the only fig is a child of a
fig-group, so the `.//fig` and `.//fig-group/fig` queries both collect
it and the extractor emits two records with the same `figure_id`. -/
theorem claim_C2_counterexample :
    ¬ List.Pairwise (fun a b => a.figure_id ≠ b.figure_id)
      (extract_figure_data (some groupedRoot) "123") := by
  intro h
  rw [show extract_figure_data (some groupedRoot) "123" = [fdF1, fdF1] from rfl] at h
  exact (List.pairwise_cons.mp h).1 fdF1 (List.mem_cons_self _ _) rfl

/-- C2 amended: when every collected figure element carries an `id`
attribute and no two collected elements carry the same one (which in
particular excludes figs nested in fig-groups, since those are
collected twice), the emitted `figure_id` values are pairwise
distinct. -/
theorem claim_C2_amended (root : Element) (pid : String)
    (h1 : ∀ f ∈ fig_elements root, (f.getAttr "id").isSome = true)
    (h2 : List.Pairwise (fun a b => a ≠ b)
      ((fig_elements root).map (fun f => f.getAttr "id"))) :
    List.Pairwise (fun a b => a ≠ b)
      ((extract_figure_data (some root) pid).map (fun fd => fd.figure_id)) := by
  simp only [extract_figure_data]
  apply extractLoop_pairwise pid (fig_elements root) [] h1
  simp only [List.map_nil, List.nil_append]
  refine List.pairwise_map.mpr ?_
  refine (List.pairwise_map.mp h2).imp_of_mem ?_
  intro a b ha hb hrel
  obtain ⟨va, hva⟩ := Option.isSome_iff_exists.mp (h1 a ha)
  obtain ⟨vb, hvb⟩ := Option.isSome_iff_exists.mp (h1 b hb)
  rw [hva, hvb]
  simp only [Option.getD_some]
  intro heq
  exact hrel (by rw [hva, hvb, heq])

/-- C2 amended witness at a concrete two-figure fixture. -/
theorem claim_C2_amended_witness :
    List.Pairwise (fun a b => a ≠ b)
      ((extract_figure_data (some twoFigRoot) "9").map (fun fd => fd.figure_id)) :=
  claim_C2_amended twoFigRoot "9" (by decide) (by decide)

/-- C3: each record of the extractor output carries, as `figure_id`,
the `id` attribute of the source element verbatim when present, and the
positional placeholder `fig_<index>` (its position in the output) when
absent. -/
theorem claim_C3 (root : Element) (pid : String) :
    ∀ (i : Nat) (fd : FigureData),
      (extract_figure_data (some root) pid)[i]? = some fd →
      ∃ fig ∈ fig_elements root,
        fig.getAttr "id" = some fd.figure_id ∨
        (fig.getAttr "id" = none ∧ fd.figure_id = "fig_" ++ toString i) := by
  intro i fd hget
  obtain ⟨rest, h1, h2⟩ := extractLoop_eq_append pid (fig_elements root) []
  have h1x : extract_figure_data (some root) pid = rest := by
    simpa [extract_figure_data] using h1
  rw [h1x] at hget
  rw [List.getElem?_eq_some] at hget
  obtain ⟨hlt, hgetel⟩ := hget
  obtain ⟨fig, hmem, hp⟩ := h2 i hlt
  have hgg : rest.get ⟨i, hlt⟩ = fd := by simpa using hgetel
  rw [hgg] at hp
  simp only [List.length_nil, Nat.zero_add] at hp
  obtain ⟨cap, _, _, _, _, _, _, _, h8⟩ := processFig_eq_some hp
  cases hattr : fig.getAttr "id" with
  | some s =>
    refine ⟨fig, hmem, Or.inl ?_⟩
    rw [h8, hattr]
    rfl
  | none =>
    refine ⟨fig, hmem, Or.inr ⟨hattr, ?_⟩⟩
    rw [h8, hattr]
    rfl

/-- C3 witness: in `plainRoot` the fig lacks an id, and the record at
output position 0 gets `fig_0`. -/
theorem claim_C3_witness :
    ∃ fig ∈ fig_elements plainRoot,
      fig.getAttr "id" = some fdNoId.figure_id ∨
      (fig.getAttr "id" = none ∧ fdNoId.figure_id = "fig_" ++ toString 0) :=
  claim_C3 plainRoot "77" 0 fdNoId (by decide)

/-- C6: an article whose XML fails to parse yields the empty record
list (the `except` branch), with no partial output. -/
theorem claim_C6 (pmc_id : String) : extract_figure_data none pmc_id = [] := rfl

/-- C9: every record the extractor emits originates from a collected
figure element that has a caption descendant and a graphic descendant
whose xlink href is the (non-empty) image reference of the record; hence a
figure lacking either is never included. -/
theorem claim_C9 (root : Element) (pid : String) :
    ∀ fd ∈ extract_figure_data (some root) pid,
      ∃ fig ∈ fig_elements root,
        (∃ cap, findFirstTag fig "caption" = some cap) ∧
        (∃ g, findFirstTag fig "graphic" = some g ∧
          g.getAttr xlinkHref = some fd.image_href ∧ fd.image_href ≠ "") := by
  intro fd hfd
  simp only [extract_figure_data] at hfd
  obtain ⟨rest, h1, h2⟩ := extractLoop_eq_append pid (fig_elements root) []
  rw [h1] at hfd
  simp only [List.nil_append] at hfd
  obtain ⟨⟨j, hj⟩, hget⟩ := List.mem_iff_get.mp hfd
  obtain ⟨fig, hmem, hp⟩ := h2 j hj
  rw [hget] at hp
  obtain ⟨cap, hcap, _, _, ⟨g, hg, hhref⟩, hne, _⟩ := processFig_eq_some hp
  exact ⟨fig, hmem, ⟨cap, hcap⟩, ⟨g, hg, hhref, hne⟩⟩

/-- C9 witness at a concrete fixture. -/
theorem claim_C9_witness :
    ∃ fig ∈ fig_elements plainRoot,
      (∃ cap, findFirstTag fig "caption" = some cap) ∧
      (∃ g, findFirstTag fig "graphic" = some g ∧
        g.getAttr xlinkHref = some fdNoId.image_href ∧ fdNoId.image_href ≠ "") :=
  claim_C9 plainRoot "77" fdNoId (by decide)

/-! ### Claims about the assembler, downloader and search client -/

/-- C4: the metadata flushes happen exactly at article indices
`0, 5, 10, ...` and at the final index, and after any article at an
index divisible by 5 the metadata file holds the serialization of the
full accumulated collection (in particular it exists and is a JSON
document), regardless of how many figures matched. -/
theorem claim_C4 (arts : List (List DatasetEntry)) :
    (create_dataset arts).flushes
      = (List.range arts.length).filter
          (fun i => i % 5 == 0 || i == arts.length - 1) ∧
    (∀ k, k < arts.length → k % 5 = 0 →
      (createDatasetState arts (k + 1)).file
        = some (metadataToJson ((arts.take (k + 1)).flatten))) := by
  constructor
  · unfold create_dataset createDatasetState
    rw [List.take_length, buildLoop_flushes]
    simp [initState, List.range_eq_range']
  · intro k hk hk5
    have hlen : (arts.take (k + 1)).length = k + 1 := by
      rw [List.length_take]
      omega
    have hne : arts.take (k + 1) ≠ [] := by
      intro hnil
      rw [hnil] at hlen
      simp at hlen
    have hcond : ((0 + (arts.take (k + 1)).length - 1) % 5 == 0 ||
        (0 + (arts.take (k + 1)).length - 1) == arts.length - 1) = true := by
      rw [hlen]
      simp [hk5]
    unfold createDatasetState
    rw [buildLoop_file_of_last arts.length (arts.take (k + 1)) 0 initState hne hcond]
    simp [initState]

/-- C4 witness: 12 articles with no matched figures; after the article
at zero-based index 5 the metadata file holds the (empty) collection. -/
theorem claim_C4_witness :
    (createDatasetState (List.replicate 12 ([] : List DatasetEntry)) (5 + 1)).file
      = some (metadataToJson
          (((List.replicate 12 ([] : List DatasetEntry)).take (5 + 1)).flatten)) :=
  (claim_C4 (List.replicate 12 [])).2 5 (by decide) (by decide)

/-- C5: a successful download implies every stage succeeded (so any
stage failure yields `none`, no exception escapes the handler), and in
the per-article loop turning the download of one figure from success
into failure removes exactly the entry of that figure: the others are
untouched and the pair count drops by exactly one. -/
theorem claim_C5 (env : DownloadEnv) (dir pid : String) (fd : FigureData)
    (dl dl2 : FigureData → Option FigureData) (pre post : List FigureData)
    (f pf : FigureData) (hdl : dl f = some pf) (hdl2 : dl2 f = none)
    (hagree : ∀ g, g ∈ pre ∨ g ∈ post → dl2 g = dl g) :
    ((download_figure_image env dir fd pid).isSome = true →
      env.pageStatus = 200 ∧ env.saveOk = true ∧
      ∃ url rest,
        (if (env.srcMatches fd.image_href).isEmpty then env.figIdMatches fd.figure_id
         else env.srcMatches fd.image_href) = url :: rest ∧
        env.imageStatus (if pyStartsWith url "/" then "https://www.ncbi.nlm.nih.gov" ++ url else url) = 200 ∧
        env.decodeOk (if pyStartsWith url "/" then "https://www.ncbi.nlm.nih.gov" ++ url else url) = true) ∧
    process_article dl pid (pre ++ f :: post)
      = process_article dl pid pre ++ pairData pid pf :: process_article dl pid post ∧
    process_article dl2 pid (pre ++ f :: post)
      = process_article dl pid pre ++ process_article dl pid post ∧
    (process_article dl pid (pre ++ f :: post)).length
      = (process_article dl2 pid (pre ++ f :: post)).length + 1 := by
  have hstep : process_article dl pid (f :: post)
      = pairData pid pf :: process_article dl pid post := by
    simp only [process_article, hdl]
  have hstep2 : process_article dl2 pid (f :: post)
      = process_article dl2 pid post := by
    simp only [process_article, hdl2]
  have hdlrun : process_article dl pid (pre ++ f :: post)
      = process_article dl pid pre ++ pairData pid pf :: process_article dl pid post := by
    rw [process_article_append, hstep]
  have hdl2run : process_article dl2 pid (pre ++ f :: post)
      = process_article dl pid pre ++ process_article dl pid post := by
    rw [process_article_append, hstep2,
      process_article_congr dl dl2 pid pre (fun g hg => hagree g (Or.inl hg)),
      process_article_congr dl dl2 pid post (fun g hg => hagree g (Or.inr hg))]
  refine ⟨?_, hdlrun, hdl2run, ?_⟩
  · intro hs
    obtain ⟨out, hout⟩ := Option.isSome_iff_exists.mp hs
    obtain ⟨hp, hex, hsave, -⟩ := download_figure_image_eq_some hout
    exact ⟨hp, hsave, hex⟩
  · rw [hdlrun, hdl2run]
    simp only [List.length_append, List.length_cons]
    omega

/-- A download environment in which every stage succeeds. -/
def envW : DownloadEnv :=
  { pageStatus := 200, srcMatches := fun _ => ["/pmc/articles/img1.jpg"],
    figIdMatches := fun _ => [], imageStatus := fun _ => 200,
    decodeOk := fun _ => true, saveOk := true }

/-- A figure record before download. -/
def fdW : FigureData :=
  { pmc_id := "123", figure_id := "fig1", caption := "Fundus photo",
    image_href := "img1.jpg", local_image_path := none }

/-- The record `fdW` after a successful download. -/
def pfW : FigureData := { fdW with local_image_path := some "images/PMC123_fig1.jpg" }

/-- C5 witness at a concrete single-figure article. -/
theorem claim_C5_witness :
    ((download_figure_image envW "images" fdW "123").isSome = true →
      envW.pageStatus = 200 ∧ envW.saveOk = true ∧
      ∃ url rest,
        (if (envW.srcMatches fdW.image_href).isEmpty then envW.figIdMatches fdW.figure_id
         else envW.srcMatches fdW.image_href) = url :: rest ∧
        envW.imageStatus (if pyStartsWith url "/" then "https://www.ncbi.nlm.nih.gov" ++ url else url) = 200 ∧
        envW.decodeOk (if pyStartsWith url "/" then "https://www.ncbi.nlm.nih.gov" ++ url else url) = true) ∧
    process_article (fun _ => some pfW) "123" ([] ++ fdW :: [])
      = process_article (fun _ => some pfW) "123" []
          ++ pairData "123" pfW :: process_article (fun _ => some pfW) "123" [] ∧
    process_article (fun _ => none) "123" ([] ++ fdW :: [])
      = process_article (fun _ => some pfW) "123" []
          ++ process_article (fun _ => some pfW) "123" [] ∧
    (process_article (fun _ => some pfW) "123" ([] ++ fdW :: [])).length
      = (process_article (fun _ => none) "123" ([] ++ fdW :: [])).length + 1 :=
  claim_C5 envW "images" "123" fdW (fun _ => some pfW) (fun _ => none) [] [] fdW pfW
    rfl rfl
    (fun g hg => hg.elim (fun h => absurd h (List.not_mem_nil g))
      (fun h => absurd h (List.not_mem_nil g)))

/-- C7: a non-success HTTP status on the count request, or on the
identifier request, makes `search_articles` return the empty
identifier list without an uncaught exception; the request trace shows
each request is issued at most once (no retry). -/
theorem claim_C7 (env : SearchEnv) (lr : Bool) (mr : Nat) :
    (env.countStatus ≠ 200 →
      search_articles env lr mr = (Except.ok [], ["count"])) ∧
    (env.countStatus = 200 → env.searchStatus ≠ 200 →
      ∀ t, pyInt? (pyStrip env.countText) = some t →
      search_articles env lr mr = (Except.ok [], ["count", "search"])) := by
  constructor
  · intro h
    simp [search_articles, h]
  · intro h1 h2 t ht
    simp [search_articles, h1, h2, ht]

/-- C7 witness: an HTTP 500 on the count request, and an HTTP 500 on
the identifier request after a successful count. -/
theorem claim_C7_witness :
    search_articles ⟨500, "", 200, some []⟩ true 5 = (Except.ok [], ["count"]) ∧
    search_articles ⟨200, "7", 500, some []⟩ false 10
      = (Except.ok [], ["count", "search"]) :=
  ⟨(claim_C7 ⟨500, "", 200, some []⟩ true 5).1 (by decide),
   (claim_C7 ⟨200, "7", 500, some []⟩ false 10).2 rfl (by decide) 7 (by decide)⟩

/-- C8: after a run of `create_dataset` over a non-empty article list,
the metadata file holds a JSON document that decodes back to exactly
the in-memory pairs collection, so every appended entry reappears with
identical field values. -/
theorem claim_C8 (arts : List (List DatasetEntry)) (h : arts ≠ []) :
    ∃ j, (create_dataset arts).file = some j ∧
      metadataOfJson j = some ((create_dataset arts).pairs) := by
  refine ⟨metadataToJson arts.flatten, ?_, ?_⟩
  · unfold create_dataset createDatasetState
    rw [List.take_length]
    have hcond : ((0 + arts.length - 1) % 5 == 0 ||
        (0 + arts.length - 1) == arts.length - 1) = true := by
      simp
    rw [buildLoop_file_of_last arts.length arts 0 initState h hcond]
    simp [initState]
  · unfold create_dataset createDatasetState
    rw [List.take_length, buildLoop_pairs]
    simp [initState, metadataOfJson_metadataToJson]

/-- The entry of the round-trip scenario named in the spec. -/
def entryW : DatasetEntry :=
  { image_path := "PMC123_fig1.jpg", caption := "Fundus photo",
    pmc_id := "123", figure_id := "fig1" }

/-- C8 witness: a run with a single article contributing the entry for
image `PMC123_fig1.jpg`. -/
theorem claim_C8_witness :
    ∃ j, (create_dataset [[entryW]]).file = some j ∧
      metadataOfJson j = some ((create_dataset [[entryW]]).pairs) :=
  claim_C8 [[entryW]] (by decide)

/-- C10: on success the downloader returns its input record with only
`local_image_path` added, set to a path ending in
`PMC<article_id>_<figure_id>.jpg`; all the other fields are
unchanged. -/
theorem claim_C10 (env : DownloadEnv) (dir pid : String) (fd out : FigureData)
    (h : download_figure_image env dir fd pid = some out) :
    out.pmc_id = fd.pmc_id ∧ out.figure_id = fd.figure_id ∧
    out.caption = fd.caption ∧ out.image_href = fd.image_href ∧
    ∃ pre, out.local_image_path
      = some (pre ++ ("PMC" ++ pid ++ "_" ++ fd.figure_id ++ ".jpg")) := by
  obtain ⟨-, -, -, hout⟩ := download_figure_image_eq_some h
  subst hout
  refine ⟨rfl, rfl, rfl, rfl, ?_⟩
  obtain ⟨pre, hp⟩ := pathJoin_suffix dir ("PMC" ++ pid ++ "_" ++ fd.figure_id ++ ".jpg")
  exact ⟨pre, by rw [hp]⟩

/-- The output record for the C10 witness. -/
def outW : FigureData :=
  { pmc_id := "123", figure_id := "fig1", caption := "Fundus photo",
    image_href := "img1.jpg", local_image_path := some "images/PMC123_fig1.jpg" }

/-- C10 witness at a concrete successful download. -/
theorem claim_C10_witness :
    outW.pmc_id = fdW.pmc_id ∧ outW.figure_id = fdW.figure_id ∧
    outW.caption = fdW.caption ∧ outW.image_href = fdW.image_href ∧
    ∃ pre, outW.local_image_path
      = some (pre ++ ("PMC" ++ "123" ++ "_" ++ fdW.figure_id ++ ".jpg")) :=
  claim_C10 envW "images" "123" fdW outW (by decide)
